import Mathlib

/-!
Shallow embedding of the college-portal application (src/app.py).

The app is a Flask front end over five MongoDB collections
(students, results, attendance, queries, admins).  Each collection is
modelled as a `List` of document structures; each state-mutating HTTP
handler becomes a pure function from (form data, store state) to a new
store state, with Python exceptions modelled by `Except Unit`.

Python `float` values are modelled as exact rationals `ℚ`; Python
`round(x, 2)` (round-half-to-even) is `round2` below; `int(s)` /
`float(s)` conversions are `parseInt` / `parseFloat`, restricted to the
plain decimal literals the application's forms carry (a parse failure
models the `ValueError` the Python conversion raises).
-/

/-- Strip leading and trailing whitespace from a character list — the
effect of Python's `str.strip` and of the whitespace tolerance of
`int(s)` / `float(s)`. -/
def trimChars (cs : List Char) : List Char :=
  ((cs.dropWhile Char.isWhitespace).reverse.dropWhile Char.isWhitespace).reverse

/-- ASCII upper-casing of one character, the effect of Python's
`str.upper` on the grade strings the forms carry. -/
def charUpper (c : Char) : Char :=
  if 'a' ≤ c ∧ c ≤ 'z' then Char.ofNat (c.toNat - 32) else c

/-- Model of Python `s.strip().upper()` applied to a grade string. -/
def stripUpper (s : String) : String :=
  String.mk ((trimChars s.data).map charUpper)

/-- Digits of a decimal literal folded into a natural number. -/
def digitsToNat (cs : List Char) : ℕ :=
  cs.foldl (fun n c => 10 * n + (c.toNat - 48)) 0

/-- Parse a non-empty all-digit character list. -/
def parseNatDigits (cs : List Char) : Option ℕ :=
  if cs.all Char.isDigit && !cs.isEmpty then some (digitsToNat cs) else none

/-- Model of Python `int(s)`: optional sign, decimal digits, surrounding
whitespace tolerated. -/
def parseInt (s : String) : Option ℤ :=
  match trimChars s.data with
  | [] => none
  | c :: rest =>
    if c = '-' then (parseNatDigits rest).map (fun n => -(n : ℤ))
    else if c = '+' then (parseNatDigits rest).map (fun n => (n : ℤ))
    else (parseNatDigits (c :: rest)).map (fun n => (n : ℤ))

/-- Parse an unsigned decimal literal, with an optional fractional part,
into a rational. -/
def parseDecimal (cs : List Char) : Option ℚ :=
  match cs.splitOn '.' with
  | [whole] => (parseNatDigits whole).map (fun n => (n : ℚ))
  | [whole, frac] =>
    if whole.all Char.isDigit && frac.all Char.isDigit &&
        !(whole.isEmpty && frac.isEmpty) then
      some ((digitsToNat whole : ℚ) + (digitsToNat frac : ℚ) / (10 : ℚ) ^ frac.length)
    else none
  | _ => none

/-- Model of Python `float(s)` restricted to the decimal literals the
forms carry: optional sign, digits, optional fractional part. -/
def parseFloat (s : String) : Option ℚ :=
  match trimChars s.data with
  | [] => none
  | c :: rest =>
    if c = '-' then (parseDecimal rest).map (fun q => -q)
    else if c = '+' then parseDecimal rest
    else parseDecimal (c :: rest)

/-- Round a rational to the nearest integer, ties to even — the rounding
Python's `round` performs. -/
def roundHalfEven (x : ℚ) : ℤ :=
  let n := ⌊x⌋
  let frac := x - (n : ℚ)
  if frac < 1/2 then n
  else if 1/2 < frac then n + 1
  else if n % 2 = 0 then n else n + 1

/-- Model of Python `round(x, 2)`. -/
def round2 (x : ℚ) : ℚ := (roundHalfEven (x * 100) : ℚ) / 100

/-- The fixed grade→point table `GRADE_POINTS` (src/app.py lines 41-44). -/
def GRADE_POINTS : List (String × ℤ) :=
  [("O", 10), ("A+", 9), ("A", 8), ("B+", 7), ("B", 6), ("C", 5), ("U", 0), ("W", 0)]

/-- The lookup `GRADE_POINTS.get(grade, 0)` (src/app.py line 210). -/
def gradePoint (g : String) : ℤ := (GRADE_POINTS.lookup g).getD 0

/-- The function `attendance_grade` (src/app.py lines 46-55); the argument is already
numeric, so the `float(p)` coercion is the identity here. -/
def attendance_grade (p : ℚ) : String :=
  if p ≥ 95 then "O"
  else if p ≥ 85 then "M"
  else if p ≥ 75 then "S"
  else "U"

/-- Placeholder for werkzeug's `generate_password_hash`, an external
collaborator none of the verified properties depend on. -/
def generate_password_hash (p : String) : String := String.append "hash:" p

/-- A document of the `students` collection.  `student_register` stores
only the first four fields, so the rest are optional. -/
structure StudentDoc where
  register_no : String
  name : String
  email : String
  password : String
  department : Option String
  batch : Option String
  dob : Option String
  gender : Option String
deriving DecidableEq

/-- One subject entry inside a result document (src/app.py lines 214-223). -/
structure Subject where
  code : String
  name : String
  credit : ℤ
  grade : String
  grade_point : ℤ
  attendance_percentage : ℚ
  attendance_grade : String
  result : String
deriving DecidableEq

/-- A document of the `results` collection (src/app.py lines 228-235). -/
structure ResultDoc where
  register_no : String
  semester : ℤ
  subjects : List Subject
  total_credits : ℤ
  gpa : ℚ
  final_result : String
deriving DecidableEq

/-- A document of the `attendance` collection (src/app.py lines 139-148). -/
structure AttDoc where
  register_no : String
  semester : String
  subject : String
  department : String
  total_classes : ℤ
  attended_classes : ℤ
  attendance_percentage : ℚ
deriving DecidableEq

/-- A document of the `queries` collection (src/app.py lines 433-440). -/
structure QueryDoc where
  register_no : String
  name : String
  query_type : String
  message : String
  reply : String
  status : String
deriving DecidableEq

/-- The document store: the four student-facing collections. -/
structure DB where
  students : List StudentDoc
  results : List ResultDoc
  attendance : List AttDoc
  queries : List QueryDoc
deriving DecidableEq

/-- Form of POST /student/register. -/
structure RegisterForm where
  register_no : String
  name : String
  email : String
  password : String

/-- POST branch of `student_register` (src/app.py lines 326-333): the new
student is inserted unconditionally, with no uniqueness check. -/
def student_register (f : RegisterForm) (sts : List StudentDoc) : List StudentDoc :=
  sts ++ [{ register_no := f.register_no, name := f.name, email := f.email,
            password := generate_password_hash f.password,
            department := none, batch := none, dob := none, gender := none }]

/-- Form of POST /admin/add-student. -/
structure AddStudentForm where
  register_no : String
  name : String
  email : String
  password : String
  department : String
  batch : String
  dob : String
  gender : String

/-- POST branch of `admin_add_student` (src/app.py lines 106-121): when a
student with the same register_no or email exists the insert is refused
(the Bool is false, "Student already exists"); otherwise the student is
inserted. -/
def admin_add_student (f : AddStudentForm) (sts : List StudentDoc) :
    List StudentDoc × Bool :=
  if sts.any (fun s => s.register_no == f.register_no || s.email == f.email) then
    (sts, false)
  else
    (sts ++ [{ register_no := f.register_no, name := f.name, email := f.email,
               password := generate_password_hash f.password,
               department := some f.department, batch := some f.batch,
               dob := some f.dob, gender := some f.gender }], true)

/-- Form of POST /admin/attendance. -/
structure AttendanceForm where
  register_no : String
  department : String
  semester : String
  subject : String
  total : String
  attended : String

/-- The attendance-percentage computation (src/app.py line 138). -/
def attendancePercentage (total_classes attended_classes : ℤ) : ℚ :=
  if total_classes > 0 then
    round2 ((attended_classes : ℚ) / (total_classes : ℚ) * 100)
  else 0

/-- Does an attendance document match the (register_no, semester, subject)
filter of the attendance upsert? -/
def attMatches (reg sem subj : String) (d : AttDoc) : Bool :=
  d.register_no == reg && d.semester == sem && d.subject == subj

/-- MongoDB `update_one(filter, set, upsert=True)` on the attendance
collection (src/app.py lines 139-148): the first document matching the
triple has the set fields overwritten; when none matches, a document built
from the filter fields and the set fields is inserted. -/
def attUpsert (reg sem subj dept : String) (total att : ℤ) (pct : ℚ) :
    List AttDoc → List AttDoc
  | [] => [{ register_no := reg, semester := sem, subject := subj,
             department := dept, total_classes := total,
             attended_classes := att, attendance_percentage := pct }]
  | d :: ds =>
    if attMatches reg sem subj d then
      { register_no := d.register_no, semester := d.semester,
        subject := d.subject, department := dept, total_classes := total,
        attended_classes := att, attendance_percentage := pct } :: ds
    else d :: attUpsert reg sem subj dept total att pct ds

/-- POST branch of `admin_attendance` (src/app.py lines 131-149): the
`int()` conversions of total and attended may raise; on success the
attendance record for the triple is upserted. -/
def admin_attendance (f : AttendanceForm) (st : List AttDoc) :
    Except Unit (List AttDoc) :=
  match parseInt f.total with
  | none => .error ()
  | some total_classes =>
    match parseInt f.attended with
    | none => .error ()
    | some attended_classes =>
      .ok (attUpsert f.register_no f.semester f.subject f.department
            total_classes attended_classes
            (attendancePercentage total_classes attended_classes) st)

/-- Observable attendance state after the POST: an exception leaves the
collection untouched. -/
def admin_attendance_post (f : AttendanceForm) (st : List AttDoc) : List AttDoc :=
  match admin_attendance f st with
  | .ok st2 => st2
  | .error _ => st

/-- One subject row of the upload form (fields code i, name i, grade i,
credit i, att i); a row whose code is empty is skipped, like a falsy
`code` in the Python loop. -/
structure UploadRow where
  code : String
  name : String
  grade : String
  credit : String
  att : String

/-- Form of POST /admin/upload: register number, semester and the (up to
five) subject rows of the loop. -/
structure UploadForm where
  register_no : String
  semester : String
  rows : List UploadRow

/-- Accumulator of the subject loop (src/app.py lines 199-202). -/
structure LoopState where
  subjects : List Subject
  total_points : ℤ
  total_credits : ℤ
  overall_pass : Bool

/-- One iteration of the subject loop (src/app.py lines 203-225): a present
row has its credit and attendance parsed (either may raise), the grade
normalised by strip/upper, the grade point, attendance grade and pass/fail
status derived, and the running totals pushed. -/
def processRow (acc : LoopState) (r : UploadRow) : Except Unit LoopState :=
  if r.code == "" then .ok acc
  else
    match parseInt r.credit with
    | none => .error ()
    | some credit =>
      match parseFloat r.att with
      | none => .error ()
      | some att =>
        let grade := stripUpper r.grade
        let grade_point := gradePoint grade
        let att_grade := attendance_grade att
        let result_status := if grade == "U" || grade == "W" then "FAIL" else "PASS"
        let subj : Subject :=
          { code := r.code, name := r.name, credit := credit, grade := grade,
            grade_point := grade_point, attendance_percentage := att,
            attendance_grade := att_grade, result := result_status }
        .ok { subjects := acc.subjects ++ [subj],
              total_points := acc.total_points + grade_point * credit,
              total_credits := acc.total_credits + credit,
              overall_pass := if result_status == "FAIL" then false
                              else acc.overall_pass }

/-- POST branch of `upload_result` (src/app.py lines 196-236): the semester
`int()` may raise, the subject loop may raise, and only after the whole
computation succeeds is the result document inserted. -/
def upload_result (f : UploadForm) (st : List ResultDoc) :
    Except Unit (List ResultDoc) :=
  match parseInt f.semester with
  | none => .error ()
  | some sem =>
    match f.rows.foldlM processRow
        { subjects := [], total_points := 0, total_credits := 0,
          overall_pass := true } with
    | .error e => .error e
    | .ok ls =>
      let gpa := if ls.total_credits > 0 then
          round2 ((ls.total_points : ℚ) / (ls.total_credits : ℚ)) else 0
      let final_result := if ls.overall_pass then "PASS" else "FAIL"
      .ok (st ++ [{ register_no := f.register_no, semester := sem,
                    subjects := ls.subjects, total_credits := ls.total_credits,
                    gpa := gpa, final_result := final_result }])

/-- Observable results state after the POST: an exception leaves the
collection untouched. -/
def upload_result_post (f : UploadForm) (st : List ResultDoc) : List ResultDoc :=
  match upload_result f st with
  | .ok st2 => st2
  | .error _ => st

/-- MongoDB `delete_one`: removes the first matching document. -/
def deleteOne (p : α → Bool) : List α → List α
  | [] => []
  | x :: xs => if p x then xs else x :: deleteOne p xs

/-- The handler `admin_delete_student` (src/app.py lines 166-173): one `delete_one` on
students, `delete_many` on results and on attendance; the queries
collection is not touched. -/
def admin_delete_student (register_no : String) (db : DB) : DB :=
  { students := deleteOne (fun s => s.register_no == register_no) db.students,
    results := db.results.filter (fun r => !(r.register_no == register_no)),
    attendance := db.attendance.filter (fun a => !(a.register_no == register_no)),
    queries := db.queries }

/-- One row of a student's result summary in the report (src/app.py
lines 272-279). -/
structure SummaryRow where
  semester : ℤ
  subject : String
  grade : String
  attendance_grade : String
  result : String
deriving DecidableEq

/-- One entry of the admin report (src/app.py lines 283-290). -/
structure ReportEntry where
  register_no : String
  name : String
  department : String
  attendance_posted : Bool
  result_summary : List SummaryRow
  query_status : Option String
deriving DecidableEq

/-- Per-student report assembly inside the loop of `admin_report`
(src/app.py lines 263-290). -/
def studentReport (s : StudentDoc) (db : DB) : ReportEntry :=
  let reg := s.register_no
  let student_attendance := db.attendance.filter (fun a => a.register_no == reg)
  let attendance_posted := decide (student_attendance.length > 0)
  let student_results := db.results.filter (fun r => r.register_no == reg)
  let result_summary := student_results.flatMap (fun r =>
    r.subjects.map (fun sub =>
      { semester := r.semester, subject := sub.name, grade := sub.grade,
        attendance_grade := sub.attendance_grade, result := sub.result }))
  let student_query := db.queries.find? (fun q => q.register_no == reg)
  let query_status := student_query.map (fun q => q.status)
  { register_no := reg, name := s.name,
    department := s.department.getD "N/A",
    attendance_posted := attendance_posted,
    result_summary := result_summary,
    query_status := query_status }

/-- No two documents of the list share the given key. -/
def uniqueKeys (key : StudentDoc → String) : List StudentDoc → Bool
  | [] => true
  | s :: ss => !(ss.any (fun t => key t == key s)) && uniqueKeys key ss

/-- No two student documents share a register_no, and none share an
email. -/
def StudentsUnique (sts : List StudentDoc) : Prop :=
  uniqueKeys (fun s => s.register_no) sts = true ∧
  uniqueKeys (fun s => s.email) sts = true

/-- At most one attendance document per (register_no, semester, subject)
triple. -/
def AttUnique (st : List AttDoc) : Prop :=
  ∀ reg sem subj, (st.filter (attMatches reg sem subj)).length ≤ 1

/-- Attendance states reachable from the empty collection through the two
handlers that write the attendance collection: successful attendance
uploads, and the `delete_many` a student deletion performs. -/
inductive AttReachable : List AttDoc → Prop
  | empty : AttReachable []
  | upload (f : AttendanceForm) (st st2 : List AttDoc) :
      AttReachable st → admin_attendance f st = .ok st2 → AttReachable st2
  | delete (register_no : String) (st : List AttDoc) :
      AttReachable st →
      AttReachable (st.filter (fun a => !(a.register_no == register_no)))

/-- A concrete existing student used in counterexamples and witnesses. -/
def cStudent : StudentDoc :=
  { register_no := "101", name := "Asha", email := "asha@college.edu",
    password := "h1", department := none, batch := none, dob := none,
    gender := none }

/-- A registration form reusing register number "101". -/
def cRegForm : RegisterForm :=
  { register_no := "101", name := "Bala", email := "bala@college.edu",
    password := "pw" }

/-- An add-student form with fresh keys, for the C2 witness. -/
def cAddForm : AddStudentForm :=
  { register_no := "202", name := "Bala", email := "bala@college.edu",
    password := "pw", department := "CS", batch := "2024",
    dob := "2004-01-01", gender := "M" }

/-- An attendance record for another student, for the C8 witness. -/
def cOtherAtt : AttDoc :=
  { register_no := "777", semester := "3", subject := "Maths",
    department := "CS", total_classes := 40, attended_classes := 36,
    attendance_percentage := 90 }

/-- A query record for another student, for the C8 witness. -/
def cOtherQuery : QueryDoc :=
  { register_no := "777", name := "Other", query_type := "General",
    message := "hello", reply := "", status := "Pending" }

/-- A store in which student "101" has no attendance, result or query
records. -/
def cDB : DB :=
  { students := [cStudent], results := [],
    attendance := [cOtherAtt], queries := [cOtherQuery] }

/-- The (register_no, semester, subject) key of an attendance document. -/
def keyOf (d : AttDoc) : String × String × String :=
  (d.register_no, d.semester, d.subject)

/-- No two attendance documents share their key triple. -/
def pairwiseKeys (st : List AttDoc) : Prop :=
  st.Pairwise (fun d e => keyOf d ≠ keyOf e)

/-- The document an attendance POST writes for its triple. -/
def attNewDoc (f : AttendanceForm) (t a : ℤ) : AttDoc :=
  { register_no := f.register_no, semester := f.semester,
    subject := f.subject, department := f.department, total_classes := t,
    attended_classes := a,
    attendance_percentage := attendancePercentage t a }

/-- An attendance form for the triple already present in `cAttExisting`. -/
def cAttForm : AttendanceForm :=
  { register_no := "101", department := "CS", semester := "3",
    subject := "Maths", total := "40", attended := "30" }

/-- An attendance record already stored for the triple of `cAttForm`. -/
def cAttExisting : AttDoc :=
  { register_no := "101", semester := "3", subject := "Maths",
    department := "CS", total_classes := 10, attended_classes := 5,
    attendance_percentage := 50 }

/-- The state the attendance POST of `cAttForm` produces over
`[cAttExisting]`. -/
def cAttUpserted : List AttDoc :=
  attUpsert "101" "3" "Maths" "CS" 40 30 (attendancePercentage 40 30)
    [cAttExisting]

/-- A result-upload form whose only row has an unparseable credit. -/
def cBadUploadForm : UploadForm :=
  { register_no := "101", semester := "1",
    rows := [{ code := "S1", name := "Algorithms", grade := "O",
               credit := "x", att := "90" }] }

/-- An attendance form whose total field is not a number. -/
def cBadAttForm : AttendanceForm :=
  { register_no := "101", department := "CS", semester := "3",
    subject := "Maths", total := "forty", attended := "30" }

/-- A result document already stored before the failing submission. -/
def cResultDoc : ResultDoc :=
  { register_no := "999", semester := 1, subjects := [], total_credits := 0,
    gpa := 0, final_result := "PASS" }

/-- Sum of grade_point × credit over subject entries. -/
def sumPoints (l : List Subject) : ℤ :=
  (l.map (fun s => s.grade_point * s.credit)).sum

/-- Sum of credits over subject entries. -/
def sumCredits (l : List Subject) : ℤ := (l.map (fun s => s.credit)).sum

/-- A stored subject entry carries exactly the values the upload loop
derives: the looked-up grade point, the attendance letter grade, and FAIL
exactly for grades U and W. -/
def subjectComputed (s : Subject) : Prop :=
  s.grade_point = gradePoint s.grade ∧
  s.attendance_grade = attendance_grade s.attendance_percentage ∧
  s.result = (if s.grade = "U" ∨ s.grade = "W" then "FAIL" else "PASS")

/-- Invariant carried by the subject-loop accumulator. -/
def loopInv (ls : LoopState) : Prop :=
  ls.total_points = sumPoints ls.subjects ∧
  ls.total_credits = sumCredits ls.subjects ∧
  (ls.overall_pass = true ↔ ∀ s ∈ ls.subjects, s.result ≠ "FAIL") ∧
  ∀ s ∈ ls.subjects, subjectComputed s

/-- The document a successful upload builds from the parsed semester and
the final loop state (src/app.py lines 226-235). -/
def uploadDoc (f : UploadForm) (sem : ℤ) (ls : LoopState) : ResultDoc :=
  { register_no := f.register_no, semester := sem, subjects := ls.subjects,
    total_credits := ls.total_credits,
    gpa := if ls.total_credits > 0 then
        round2 ((ls.total_points : ℚ) / (ls.total_credits : ℚ)) else 0,
    final_result := if ls.overall_pass then "PASS" else "FAIL" }

/-- The form of the worked example: subjects (credit 3, grade O) and
(credit 2, grade U). -/
def cUploadForm : UploadForm :=
  { register_no := "101", semester := "1",
    rows := [{ code := "S1", name := "Algorithms", grade := "O",
               credit := "3", att := "96" },
             { code := "S2", name := "Databases", grade := "U",
               credit := "2", att := "80" }] }

/-- First computed subject of the worked example. -/
def cSubj1 : Subject :=
  { code := "S1", name := "Algorithms", credit := 3, grade := "O",
    grade_point := 10, attendance_percentage := 96, attendance_grade := "O",
    result := "PASS" }

/-- Second computed subject of the worked example. -/
def cSubj2 : Subject :=
  { code := "S2", name := "Databases", credit := 2, grade := "U",
    grade_point := 0, attendance_percentage := 80, attendance_grade := "S",
    result := "FAIL" }

/-- The document the worked example inserts; its gpa is
round((10*3 + 0*2)/5, 2). -/
def cResultUploaded : ResultDoc :=
  { register_no := "101", semester := 1, subjects := [cSubj1, cSubj2],
    total_credits := 5, gpa := round2 ((30 : ℚ) / (5 : ℚ)),
    final_result := "FAIL" }

/-- Closed form of the grade-point lookup as a chain of key comparisons. -/
theorem gradePoint_eq (g : String) :
    gradePoint g =
      if g = "O" then 10 else if g = "A+" then 9 else if g = "A" then 8
      else if g = "B+" then 7 else if g = "B" then 6 else if g = "C" then 5
      else if g = "U" then 0 else if g = "W" then 0 else 0 := by
  simp only [gradePoint, GRADE_POINTS, List.lookup]
  split_ifs with h1 h2 h3 h4 h5 h6 h7 h8 <;> try simp_all
  simp [beq_false_of_ne h1, beq_false_of_ne h2, beq_false_of_ne h3,
        beq_false_of_ne h4, beq_false_of_ne h5, beq_false_of_ne h6,
        beq_false_of_ne h7, beq_false_of_ne h8]

/-- C3: `attendance_grade` returns "O" when p ≥ 95, "M" when 85 ≤ p < 95,
"S" when 75 ≤ p < 85 and "U" when p < 75, each tier inclusive at its
lower bound. -/
theorem attendance_grade_tiers (p : ℚ) :
    (95 ≤ p → attendance_grade p = "O") ∧
    (85 ≤ p → p < 95 → attendance_grade p = "M") ∧
    (75 ≤ p → p < 85 → attendance_grade p = "S") ∧
    (p < 75 → attendance_grade p = "U") := by
  unfold attendance_grade
  refine ⟨fun h => ?_, fun h1 h2 => ?_, fun h1 h2 => ?_, fun h => ?_⟩ <;>
    (split_ifs <;> first | rfl | linarith)

/-- C3 witness: the four boundary examples 95, 94.9, 85 and 74.9. -/
theorem attendance_grade_tiers_witness :
    attendance_grade 95 = "O" ∧ attendance_grade ((949:ℚ)/10) = "M" ∧
    attendance_grade 85 = "M" ∧ attendance_grade ((749:ℚ)/10) = "U" :=
  ⟨(attendance_grade_tiers 95).1 (by norm_num),
   (attendance_grade_tiers ((949:ℚ)/10)).2.1 (by norm_num) (by norm_num),
   (attendance_grade_tiers 85).2.1 (by norm_num) (by norm_num),
   (attendance_grade_tiers ((749:ℚ)/10)).2.2.2 (by norm_num)⟩

/-- C4: every grade's looked-up point lies in {0,5,6,7,8,9,10}, and any
grade outside the table's keys maps to the default 0. -/
theorem gradePoint_range (g : String) :
    gradePoint g ∈ ([0, 5, 6, 7, 8, 9, 10] : List ℤ) ∧
    (g ∉ (["O", "A+", "A", "B+", "B", "C", "U", "W"] : List String) →
      gradePoint g = 0) := by
  rw [gradePoint_eq]
  constructor
  · split_ifs <;> decide
  · intro hm
    split_ifs with h1 h2 h3 h4 h5 h6 h7 h8 <;> simp_all

/-- C4 witness: the unknown grade "X" maps to 0 and its point is in the
allowed set. -/
theorem gradePoint_range_witness :
    gradePoint "X" ∈ ([0, 5, 6, 7, 8, 9, 10] : List ℤ) ∧ gradePoint "X" = 0 :=
  ⟨(gradePoint_range "X").1, (gradePoint_range "X").2 (by decide)⟩

/-- C10: the attendance-percentage computation is guarded: a zero total
yields 0 with no division, and a positive total yields the rounded
ratio. -/
theorem attendancePercentage_safe (total attended : ℤ) :
    (total = 0 → attendancePercentage total attended = 0) ∧
    (0 < total →
      attendancePercentage total attended =
        round2 ((attended : ℚ) / (total : ℚ) * 100)) := by
  unfold attendancePercentage
  constructor
  · intro h; subst h; simp
  · intro h; rw [if_pos h]

/-- C10 witness: total 0 gives percentage 0; total 4, attended 3 gives
the rounded ratio. -/
theorem attendancePercentage_safe_witness :
    attendancePercentage 0 5 = 0 ∧
    attendancePercentage 4 3 = round2 ((3 : ℚ) / (4 : ℚ) * 100) :=
  ⟨(attendancePercentage_safe 0 5).1 rfl,
   (attendancePercentage_safe 4 3).2 (by decide)⟩

/-- C9: deleting a student leaves the queries collection unchanged. -/
theorem admin_delete_student_queries_frame (register_no : String) (db : DB) :
    (admin_delete_student register_no db).queries = db.queries := rfl

/-- Filtering by a predicate after keeping only its complement yields
nothing. -/
theorem filter_pos_of_filter_neg (p : α → Bool) (l : List α) :
    (l.filter (fun a => !(p a))).filter p = [] := by
  induction l with
  | nil => rfl
  | cons x xs ih =>
    by_cases h : p x = true <;> simp [List.filter_cons, h, ih]

/-- The function `deleteOne` removes one matching element when one exists. -/
theorem countP_deleteOne (p : α → Bool) (l : List α) :
    (deleteOne p l).countP p =
      l.countP p - (if l.any p then 1 else 0) := by
  induction l with
  | nil => rfl
  | cons x xs ih =>
    by_cases h : p x = true
    · simp [deleteOne, h, List.countP_cons]
    · simp [deleteOne, h, List.countP_cons, ih]

/-- C6: deleting a student removes every result and attendance document
with that register number, and removes one matching student record when
one exists. -/
theorem admin_delete_student_cascade (register_no : String) (db : DB) :
    (admin_delete_student register_no db).results.filter
        (fun r => r.register_no == register_no) = [] ∧
    (admin_delete_student register_no db).attendance.filter
        (fun a => a.register_no == register_no) = [] ∧
    (admin_delete_student register_no db).students.countP
        (fun s => s.register_no == register_no) =
      db.students.countP (fun s => s.register_no == register_no) -
        (if db.students.any (fun s => s.register_no == register_no)
          then 1 else 0) := by
  refine ⟨?_, ?_, ?_⟩
  · exact filter_pos_of_filter_neg _ db.results
  · exact filter_pos_of_filter_neg _ db.attendance
  · exact countP_deleteOne _ db.students

/-- C2 counterexample: starting from a unique one-student collection,
student registration with a duplicate register number yields a collection
in which two documents share register_no "101" — registration performs no
uniqueness check, so it does not preserve the invariant. -/
theorem student_register_breaks_uniqueness :
    StudentsUnique [cStudent] ∧
    ¬ StudentsUnique (student_register cRegForm [cStudent]) := by
  constructor
  · exact ⟨rfl, rfl⟩
  · intro h
    exact absurd h.1 (by decide)

/-- Appending one student whose key clashes with nobody keeps the keys
unique. -/
theorem uniqueKeys_append_singleton (key : StudentDoc → String)
    (sts : List StudentDoc) (s : StudentDoc)
    (hall : sts.all (fun t => !(key t == key s)) = true)
    (h : uniqueKeys key sts = true) :
    uniqueKeys key (sts ++ [s]) = true := by
  induction sts with
  | nil => simp [uniqueKeys]
  | cons x xs ih =>
    simp only [uniqueKeys, List.all_cons, Bool.and_eq_true, Bool.not_eq_true',
      List.any_eq_true, List.cons_append] at *
    obtain ⟨hx, hxs⟩ := hall
    obtain ⟨hnone, huniq⟩ := h
    refine ⟨?_, ih hxs huniq⟩
    have hx2 : ¬ key x = key s := by simpa using hx
    simp [List.any_append, hnone, beq_false_of_ne (Ne.symm hx2)]

/-- C2 amended: `admin_add_student` preserves the uniqueness of register
numbers and emails — it refuses the insert when any existing student
shares either key. -/
theorem admin_add_student_preserves_uniqueness (f : AddStudentForm)
    (sts : List StudentDoc) (h : StudentsUnique sts) :
    StudentsUnique (admin_add_student f sts).1 := by
  unfold admin_add_student
  by_cases hc :
      sts.any (fun s => s.register_no == f.register_no || s.email == f.email) = true
  · rw [if_pos hc]; exact h
  · rw [if_neg hc]
    simp only [List.any_eq_true, Bool.or_eq_true, beq_iff_eq, not_exists,
      not_or] at hc
    push_neg at hc
    constructor
    · refine uniqueKeys_append_singleton _ _ _ ?_ h.1
      simp only [List.all_eq_true, Bool.not_eq_true', beq_eq_false_iff_ne]
      exact fun t ht => (hc t ht).1
    · refine uniqueKeys_append_singleton _ _ _ ?_ h.2
      simp only [List.all_eq_true, Bool.not_eq_true', beq_eq_false_iff_ne]
      exact fun t ht => (hc t ht).2

/-- C2 witness: adding a fresh student through the admin route keeps the
one-student collection unique. -/
theorem admin_add_student_preserves_uniqueness_witness :
    StudentsUnique (admin_add_student cAddForm [cStudent]).1 :=
  admin_add_student_preserves_uniqueness cAddForm [cStudent]
    ⟨by decide, by decide⟩

/-- C8: a student with no matching attendance, result or query records
yields a report entry with attendance_posted false, an empty result
summary and a null query status; `studentReport` is total, so no error is
possible. -/
theorem studentReport_empty_is_benign (s : StudentDoc) (db : DB)
    (ha : ∀ a ∈ db.attendance, ¬ a.register_no = s.register_no)
    (hr : ∀ r ∈ db.results, ¬ r.register_no = s.register_no)
    (hq : ∀ q ∈ db.queries, ¬ q.register_no = s.register_no) :
    (studentReport s db).attendance_posted = false ∧
    (studentReport s db).result_summary = [] ∧
    (studentReport s db).query_status = none := by
  have ha2 : db.attendance.filter (fun a => a.register_no == s.register_no) = [] := by
    rw [List.filter_eq_nil_iff]
    intro a hmem
    simpa using ha a hmem
  have hr2 : db.results.filter (fun r => r.register_no == s.register_no) = [] := by
    rw [List.filter_eq_nil_iff]
    intro r hmem
    simpa using hr r hmem
  have hq2 : db.queries.find? (fun q => q.register_no == s.register_no) = none := by
    rw [List.find?_eq_none]
    intro q hmem
    simpa using hq q hmem
  unfold studentReport
  simp [ha2, hr2, hq2]

/-- C8 witness: in `cDB`, student "101" has no matching records and the
report entry comes out empty and errorless. -/
theorem studentReport_empty_is_benign_witness :
    (studentReport cStudent cDB).attendance_posted = false ∧
    (studentReport cStudent cDB).result_summary = [] ∧
    (studentReport cStudent cDB).query_status = none :=
  studentReport_empty_is_benign cStudent cDB
    (by decide) (by decide) (by decide)

/-- The filter of the upsert matches exactly the documents keyed by the
given triple. -/
theorem attMatches_eq_true_iff {r s j : String} {d : AttDoc} :
    attMatches r s j d = true ↔ keyOf d = (r, s, j) := by
  simp [attMatches, keyOf, Prod.ext_iff, and_assoc]

/-- Every document of an upserted collection keeps a key of the original
collection or carries the upserted key. -/
theorem attUpsert_keyOf_mem {r s j dept : String} {t a : ℤ} {pct : ℚ}
    {st : List AttDoc} {e : AttDoc}
    (h : e ∈ attUpsert r s j dept t a pct st) :
    keyOf e ∈ st.map keyOf ∨ keyOf e = (r, s, j) := by
  induction st with
  | nil =>
    simp only [attUpsert, List.mem_singleton] at h
    subst h
    right; rfl
  | cons d ds ih =>
    simp only [attUpsert] at h
    by_cases hd : attMatches r s j d = true
    · rw [if_pos hd] at h
      rcases List.mem_cons.1 h with rfl | hmem
      · right
        have hk := attMatches_eq_true_iff.1 hd
        simpa [keyOf] using hk
      · left; simp [List.mem_map]; right; exact ⟨e, hmem, rfl⟩
    · rw [if_neg hd] at h
      rcases List.mem_cons.1 h with rfl | hmem
      · left; simp
      · rcases ih hmem with hk | hk
        · left; simp only [List.map_cons, List.mem_cons]; right; exact hk
        · right; exact hk

/-- The upsert preserves pairwise-distinct keys: an overwrite keeps the
overwritten document's key, an insert adds a key no document had. -/
theorem attUpsert_pairwise (r s j dept : String) (t a : ℤ) (pct : ℚ)
    (st : List AttDoc) (h : pairwiseKeys st) :
    pairwiseKeys (attUpsert r s j dept t a pct st) := by
  induction st with
  | nil => simp [attUpsert, pairwiseKeys]
  | cons d ds ih =>
    rw [pairwiseKeys, List.pairwise_cons] at h
    obtain ⟨hd_rel, hds⟩ := h
    simp only [attUpsert]
    by_cases hd : attMatches r s j d = true
    · rw [if_pos hd]
      rw [pairwiseKeys, List.pairwise_cons]
      exact ⟨fun e he => hd_rel e he, hds⟩
    · rw [if_neg hd]
      rw [pairwiseKeys, List.pairwise_cons]
      refine ⟨?_, ih hds⟩
      intro e he
      rcases attUpsert_keyOf_mem he with hk | hk
      · rcases List.mem_map.1 hk with ⟨e0, he0, hke⟩
        rw [← hke]
        exact hd_rel e0 he0
      · rw [hk]
        intro hke
        exact hd (attMatches_eq_true_iff.2 hke)

/-- Pairwise-distinct keys give at most one document per triple. -/
theorem pairwise_attUnique (st : List AttDoc) (h : pairwiseKeys st) :
    AttUnique st := by
  intro r s j
  induction st with
  | nil => simp
  | cons d ds ih =>
    rw [pairwiseKeys, List.pairwise_cons] at h
    obtain ⟨hd_rel, hds⟩ := h
    by_cases hd : attMatches r s j d = true
    · rw [List.filter_cons_of_pos hd]
      have hnil : ds.filter (attMatches r s j) = [] := by
        rw [List.filter_eq_nil_iff]
        intro e he hme
        have h1 := attMatches_eq_true_iff.1 hme
        have h2 := attMatches_eq_true_iff.1 hd
        exact hd_rel e he (h2.trans h1.symm)
      rw [hnil]
      simp
    · rw [List.filter_cons_of_neg (by simpa using hd)]
      exact ih hds

/-- Inversion of a successful attendance POST: both numeric fields parsed
and the new state is the upsert. -/
theorem admin_attendance_ok_eq {f : AttendanceForm} {st st2 : List AttDoc}
    (h : admin_attendance f st = .ok st2) :
    ∃ t a, parseInt f.total = some t ∧ parseInt f.attended = some a ∧
      st2 = attUpsert f.register_no f.semester f.subject f.department t a
              (attendancePercentage t a) st := by
  unfold admin_attendance at h
  cases ht : parseInt f.total with
  | none => rw [ht] at h; cases h
  | some t =>
    rw [ht] at h
    cases ha : parseInt f.attended with
    | none => rw [ha] at h; cases h
    | some a =>
      rw [ha] at h
      exact ⟨t, a, rfl, rfl, (Except.ok.inj h).symm⟩

/-- Every attendance state reachable through the handlers keeps its keys
pairwise distinct. -/
theorem reachable_pairwiseKeys {st : List AttDoc} (h : AttReachable st) :
    pairwiseKeys st := by
  induction h with
  | empty => exact List.Pairwise.nil
  | upload f st st2 hr hok ih =>
    obtain ⟨t, a, ht, ha, rfl⟩ := admin_attendance_ok_eq hok
    exact attUpsert_pairwise _ _ _ _ _ _ _ _ ih
  | delete register_no st hr ih => exact ih.filter _

/-- When some document matches, the upsert keeps the length. -/
theorem attUpsert_length_of_any {r s j : String} {st : List AttDoc}
    (dept : String) (t a : ℤ) (pct : ℚ)
    (h : st.any (attMatches r s j) = true) :
    (attUpsert r s j dept t a pct st).length = st.length := by
  induction st with
  | nil => cases h
  | cons d ds ih =>
    simp only [attUpsert]
    by_cases hd : attMatches r s j d = true
    · rw [if_pos hd]; simp
    · rw [if_neg hd]
      have hds : ds.any (attMatches r s j) = true := by
        simpa [hd] using h
      simp [ih hds]

/-- When some document matches, the document carrying the filter triple
and the set fields is in the upserted collection. -/
theorem attUpsert_mem_of_any {r s j : String} {st : List AttDoc}
    (dept : String) (t a : ℤ) (pct : ℚ)
    (h : st.any (attMatches r s j) = true) :
    ({ register_no := r, semester := s, subject := j, department := dept,
       total_classes := t, attended_classes := a,
       attendance_percentage := pct } : AttDoc) ∈
      attUpsert r s j dept t a pct st := by
  induction st with
  | nil => cases h
  | cons d ds ih =>
    simp only [attUpsert]
    by_cases hd : attMatches r s j d = true
    · rw [if_pos hd]
      have hk := attMatches_eq_true_iff.1 hd
      simp only [keyOf, Prod.mk.injEq] at hk
      obtain ⟨h1, h2, h3⟩ := hk
      rw [h1, h2, h3]
      exact List.mem_cons_self _ _
    · rw [if_neg hd]
      have hds : ds.any (attMatches r s j) = true := by
        simpa [hd] using h
      exact List.mem_cons_of_mem _ (ih hds)

/-- When no document matches, the upsert appends the new document. -/
theorem attUpsert_of_any_false {r s j : String} {st : List AttDoc}
    (dept : String) (t a : ℤ) (pct : ℚ)
    (h : st.any (attMatches r s j) = false) :
    attUpsert r s j dept t a pct st =
      st ++ [{ register_no := r, semester := s, subject := j,
               department := dept, total_classes := t, attended_classes := a,
               attendance_percentage := pct }] := by
  induction st with
  | nil => rfl
  | cons d ds ih =>
    simp only [List.any_cons, Bool.or_eq_false_iff] at h
    simp only [attUpsert, if_neg (by simp [h.1] : ¬ attMatches r s j d = true)]
    rw [ih h.2]
    rfl

/-- C7: every reachable attendance state has at most one record per
(register_no, semester, subject) triple; a successful upload overwrites
the existing record of its triple (same length, new fields) and appends a
record when the triple is new. -/
theorem attendance_upsert_keyed :
    (∀ st, AttReachable st → AttUnique st) ∧
    (∀ f st st2 t a, parseInt f.total = some t →
      parseInt f.attended = some a → admin_attendance f st = .ok st2 →
      (st.any (attMatches f.register_no f.semester f.subject) = true →
        st2.length = st.length ∧ attNewDoc f t a ∈ st2) ∧
      (st.any (attMatches f.register_no f.semester f.subject) = false →
        st2 = st ++ [attNewDoc f t a])) := by
  constructor
  · exact fun st h => pairwise_attUnique st (reachable_pairwiseKeys h)
  · intro f st st2 t a ht ha hok
    obtain ⟨t2, a2, ht2, ha2, rfl⟩ := admin_attendance_ok_eq hok
    rw [ht] at ht2
    rw [ha] at ha2
    obtain rfl : t = t2 := Option.some.inj ht2
    obtain rfl : a = a2 := Option.some.inj ha2
    constructor
    · intro hany
      exact ⟨attUpsert_length_of_any _ _ _ _ hany,
             attUpsert_mem_of_any _ _ _ _ hany⟩
    · intro hnone
      exact attUpsert_of_any_false _ _ _ _ hnone

/-- C7 witness: the empty state is unique, and uploading over the
existing triple keeps one record, now carrying the new fields. -/
theorem attendance_upsert_keyed_witness :
    AttUnique ([] : List AttDoc) ∧
    cAttUpserted.length = ([cAttExisting] : List AttDoc).length ∧
    attNewDoc cAttForm 40 30 ∈ cAttUpserted := by
  have h := attendance_upsert_keyed
  obtain ⟨hlen, hmem⟩ :=
    (h.2 cAttForm [cAttExisting] cAttUpserted 40 30 rfl rfl rfl).1 (by decide)
  exact ⟨h.1 [] AttReachable.empty, hlen, hmem⟩

/-- A processed row whose credit or attendance field fails numeric
conversion raises. -/
theorem processRow_error {r : UploadRow} (h1 : (r.code == "") = false)
    (h2 : parseInt r.credit = none ∨ parseFloat r.att = none)
    (acc : LoopState) : processRow acc r = .error () := by
  unfold processRow
  rw [if_neg (by simp [h1])]
  rcases h2 with h2 | h2
  · rw [h2]
  · cases hc : parseInt r.credit with
    | none => rfl
    | some credit => rw [h2]

/-- The subject loop raises as soon as any processed row fails numeric
conversion. -/
theorem foldlM_processRow_error {rows : List UploadRow}
    (h : ∃ r ∈ rows, (r.code == "") = false ∧
      (parseInt r.credit = none ∨ parseFloat r.att = none))
    (acc : LoopState) : rows.foldlM processRow acc = .error () := by
  induction rows generalizing acc with
  | nil =>
    obtain ⟨r, hr, _⟩ := h
    cases hr
  | cons x xs ih =>
    rw [List.foldlM_cons]
    obtain ⟨r, hr, hbad⟩ := h
    rcases List.mem_cons.1 hr with rfl | hmem
    · rw [processRow_error hbad.1 hbad.2 acc]
      rfl
    · cases hx : processRow acc x with
      | error e => rfl
      | ok acc2 => exact ih ⟨r, hmem, hbad⟩ acc2

/-- C5: a failed numeric conversion in a result submission aborts the
request with no insert into the results collection, and a failed total or
attended conversion leaves the attendance collection unchanged. -/
theorem parse_failure_no_commit :
    (∀ f st,
      (∃ r ∈ f.rows, (r.code == "") = false ∧
        (parseInt r.credit = none ∨ parseFloat r.att = none)) →
      upload_result f st = .error () ∧ upload_result_post f st = st) ∧
    (∀ g st, (parseInt g.total = none ∨ parseInt g.attended = none) →
      admin_attendance g st = .error () ∧ admin_attendance_post g st = st) := by
  constructor
  · intro f st h
    have herr : upload_result f st = .error () := by
      unfold upload_result
      cases hs : parseInt f.semester with
      | none => rfl
      | some sem => rw [foldlM_processRow_error h]
    refine ⟨herr, ?_⟩
    unfold upload_result_post
    rw [herr]
  · intro g st h
    have herr : admin_attendance g st = .error () := by
      unfold admin_attendance
      rcases h with h | h
      · rw [h]
      · cases ht : parseInt g.total with
        | none => rfl
        | some t => rw [h]
    refine ⟨herr, ?_⟩
    unfold admin_attendance_post
    rw [herr]

/-- C5 witness: the concrete bad submissions raise and leave both
collections exactly as they were. -/
theorem parse_failure_no_commit_witness :
    (upload_result cBadUploadForm [cResultDoc] = .error () ∧
      upload_result_post cBadUploadForm [cResultDoc] = [cResultDoc]) ∧
    (admin_attendance cBadAttForm [cAttExisting] = .error () ∧
      admin_attendance_post cBadAttForm [cAttExisting] = [cAttExisting]) :=
  ⟨parse_failure_no_commit.1 cBadUploadForm [cResultDoc] (by decide),
   parse_failure_no_commit.2 cBadAttForm [cAttExisting] (by decide)⟩

/-- The loop starts in the invariant. -/
theorem loopInv_init :
    loopInv { subjects := [], total_points := 0, total_credits := 0,
              overall_pass := true } := by
  refine ⟨rfl, rfl, by simp, by simp⟩

/-- One successful loop iteration preserves the invariant. -/
theorem processRow_ok_inv {acc ls : LoopState} {r : UploadRow}
    (h : loopInv acc) (hok : processRow acc r = .ok ls) : loopInv ls := by
  unfold processRow at hok
  by_cases hc : (r.code == "") = true
  · rw [if_pos hc] at hok
    obtain rfl := Except.ok.inj hok
    exact h
  · rw [if_neg (by simpa using hc)] at hok
    cases hcr : parseInt r.credit with
    | none => rw [hcr] at hok; cases hok
    | some credit =>
      rw [hcr] at hok
      cases hat : parseFloat r.att with
      | none => rw [hat] at hok; cases hok
      | some att =>
        rw [hat] at hok
        obtain rfl := (Except.ok.inj hok).symm
        obtain ⟨h1, h2, h3, h4⟩ := h
        refine ⟨?_, ?_, ?_, ?_⟩
        · simp [sumPoints, h1]
        · simp [sumCredits, h2]
        · by_cases hb :
            (stripUpper r.grade == "U" || stripUpper r.grade == "W") = true
          · simp [hb, List.forall_mem_append]
            exact ⟨_, Or.inr rfl, rfl⟩
          · simp only [Bool.not_eq_true] at hb
            simp [hb, h3, List.forall_mem_append]
            constructor
            · rintro hall s (hs | rfl)
              · exact hall s hs
              · simp
            · intro hall s hs
              exact hall s (Or.inl hs)
        · simp only [List.forall_mem_append]
          refine ⟨h4, ?_⟩
          intro s hs
          rw [List.mem_singleton] at hs
          subst hs
          refine ⟨rfl, rfl, ?_⟩
          by_cases hb :
              (stripUpper r.grade == "U" || stripUpper r.grade == "W") = true
          · have hb2 : stripUpper r.grade = "U" ∨ stripUpper r.grade = "W" := by
              simpa using hb
            simp [hb, hb2]
          · have hb2 : ¬ (stripUpper r.grade = "U" ∨ stripUpper r.grade = "W") := by
              simpa using hb
            simp only [Bool.not_eq_true] at hb
            simp [hb, hb2]

/-- A successful run of the whole loop lands in the invariant. -/
theorem foldlM_processRow_inv {rows : List UploadRow} {acc ls : LoopState}
    (h : loopInv acc) (hok : rows.foldlM processRow acc = .ok ls) :
    loopInv ls := by
  induction rows generalizing acc with
  | nil =>
    obtain rfl := Except.ok.inj hok
    exact h
  | cons x xs ih =>
    rw [List.foldlM_cons] at hok
    cases hx : processRow acc x with
    | error e =>
      rw [hx] at hok
      have hok2 : (Except.error e : Except Unit LoopState) = .ok ls := hok
      cases hok2
    | ok acc2 =>
      rw [hx] at hok
      exact ih (processRow_ok_inv h hx) hok

/-- Inversion of a successful result upload: the semester parsed, the
loop succeeded, and the new state appends the computed document. -/
theorem upload_result_ok_eq {f : UploadForm} {st st2 : List ResultDoc}
    (h : upload_result f st = .ok st2) :
    ∃ sem ls, parseInt f.semester = some sem ∧
      f.rows.foldlM processRow
        { subjects := [], total_points := 0, total_credits := 0,
          overall_pass := true } = .ok ls ∧
      st2 = st ++ [uploadDoc f sem ls] := by
  unfold upload_result at h
  cases hs : parseInt f.semester with
  | none => rw [hs] at h; cases h
  | some sem =>
    rw [hs] at h
    cases hf : f.rows.foldlM processRow
        { subjects := [], total_points := 0, total_credits := 0,
          overall_pass := true } with
    | error e => rw [hf] at h; cases h
    | ok ls =>
      rw [hf] at h
      exact ⟨sem, ls, rfl, rfl, (Except.ok.inj h).symm⟩

/-- C1: a successful result upload appends one document whose subjects
carry the looked-up grade point, the attendance letter grade and FAIL
exactly for grades U and W, whose gpa is the rounded credit-weighted
average when credits are positive, and whose final_result is FAIL iff
some subject has grade U or W; on the worked example the gpa is 6 and the
final result FAIL. -/
theorem upload_result_computation :
    (∀ f st st2, upload_result f st = .ok st2 →
      ∃ doc, st2 = st ++ [doc] ∧
        (∀ s ∈ doc.subjects, subjectComputed s) ∧
        doc.total_credits = sumCredits doc.subjects ∧
        (0 < sumCredits doc.subjects →
          doc.gpa = round2 ((sumPoints doc.subjects : ℚ) /
            (sumCredits doc.subjects : ℚ))) ∧
        (doc.final_result = "FAIL" ↔
          ∃ s ∈ doc.subjects, s.grade = "U" ∨ s.grade = "W")) ∧
    (∃ doc, upload_result cUploadForm [] = .ok [doc] ∧
      doc.gpa = 6 ∧ doc.final_result = "FAIL") := by
  constructor
  · intro f st st2 h
    obtain ⟨sem, ls, hs, hf, rfl⟩ := upload_result_ok_eq h
    obtain ⟨h1, h2, h3, h4⟩ := foldlM_processRow_inv loopInv_init hf
    refine ⟨_, rfl, h4, h2, ?_, ?_⟩
    · intro hpos
      have hpos2 : 0 < ls.total_credits := by
        rw [h2]
        exact hpos
      show (if ls.total_credits > 0 then
          round2 ((ls.total_points : ℚ) / (ls.total_credits : ℚ)) else 0) =
        round2 ((sumPoints ls.subjects : ℚ) / (sumCredits ls.subjects : ℚ))
      rw [if_pos hpos2, h1, h2]
    · show (if ls.overall_pass then "PASS" else "FAIL") = "FAIL" ↔ _
      constructor
      · intro hfr
        by_cases hop : ls.overall_pass = true
        · rw [if_pos hop] at hfr
          exact absurd hfr (by decide)
        · have hne : ¬ ∀ s ∈ ls.subjects, s.result ≠ "FAIL" :=
            fun hall => hop (h3.mpr hall)
          push_neg at hne
          obtain ⟨s, hmem, hres⟩ := hne
          refine ⟨s, hmem, ?_⟩
          have hsc := (h4 s hmem).2.2
          rw [hsc] at hres
          by_cases hg : s.grade = "U" ∨ s.grade = "W"
          · exact hg
          · rw [if_neg hg] at hres
            exact absurd hres (by decide)
      · rintro ⟨s, hmem, hg⟩
        have hsc := (h4 s hmem).2.2
        have hres : s.result = "FAIL" := by rw [hsc, if_pos hg]
        have hop : ¬ ls.overall_pass = true :=
          fun htrue => (h3.mp htrue s hmem) hres
        rw [if_neg hop]
  · refine ⟨cResultUploaded, rfl, ?_, rfl⟩
    show round2 ((30 : ℚ) / (5 : ℚ)) = 6
    norm_num [round2, roundHalfEven]

/-- C1 witness: the general theorem applied to the worked example — each
computed subject is consistent, the credit total matches, the gpa equals
the rounded average and the final result is FAIL. -/
theorem upload_result_computation_witness :
    subjectComputed cSubj1 ∧ subjectComputed cSubj2 ∧
    cResultUploaded.total_credits = sumCredits cResultUploaded.subjects ∧
    cResultUploaded.gpa = round2 ((sumPoints cResultUploaded.subjects : ℚ) /
      (sumCredits cResultUploaded.subjects : ℚ)) ∧
    cResultUploaded.final_result = "FAIL" := by
  obtain ⟨doc, hdoc, hsub, hcred, hgpa, hfr⟩ :=
    upload_result_computation.1 cUploadForm [] [cResultUploaded] rfl
  obtain rfl : cResultUploaded = doc := by simpa using hdoc
  exact ⟨hsub cSubj1 (List.mem_cons_self _ _),
         hsub cSubj2 (List.mem_cons_of_mem _ (List.mem_cons_self _ _)),
         hcred, hgpa (by decide),
         hfr.mpr ⟨cSubj2, List.mem_cons_of_mem _ (List.mem_cons_self _ _),
           Or.inl rfl⟩⟩
